import Mathlib

/-!
Verification development for the `dynamic_complex.h` single-header library
(`src/dynamic_complex.h`): a reference-counted arbitrary-precision complex
number library with three types — Gaussian integers (`dc_complex_int`),
rational complex numbers (`dc_complex_frac`) and floating-point complex
numbers (`dc_complex_double`).

The shallow embedding has two layers.

Value layer: the numeric payload of each type.  The external
arbitrary-precision engines `dynamic_int.h` / `dynamic_fraction.h` are not
part of this repository; their narrow contract (spec sections 1 and 6) is
modelled as `di_int ↦ ℤ` and `df_frac ↦ ℚ` — Lean `Rat` keeps exactly the
contracted invariant (lowest terms, positive denominator).  Functions whose
body lives in the external engines carry a doc comment beginning
`Modelled from the spec:`.

Object layer: reference-counted cells (`RC`) and NULL-able handles
(`Option (RC _)`), with `DC_ASSERT` failures surfaced as `Except.error`.
The floating-point payload is embedded as a symbolic expression tree
(`CplxE`): no claim in scope interprets IEEE-754 values, only the guard and
reference-count structure of the `dc_double_*` functions.
-/

namespace DynamicComplex

/-- C strings are modelled as lists of characters. -/
abbrev CStr := List Char

-- ===========================================================================
-- External integer engine (dynamic_int.h), modelled from its spec contract
-- ===========================================================================

/-- Modelled from the spec: decimal digit character, used by the external
integer engine's base-10 renderer (`render-to-string(base)` in section 6). -/
def digitChar (d : ℕ) : Char := Char.ofNat (48 + d)

/-- Modelled from the spec: base-10 digit string of a natural number,
most significant digit first (external integer engine renderer). -/
def natDigs (n : ℕ) : CStr :=
  if _h : n < 10 then [digitChar n]
  else natDigs (n / 10) ++ [digitChar (n % 10)]
  decreasing_by exact Nat.div_lt_self (by omega) (by omega)

/-- Modelled from the spec: `di_to_string(…, 10)` of the external integer
engine — canonical base-10 rendering with a leading minus sign. -/
def intStr (n : ℤ) : CStr :=
  if n < 0 then '-' :: natDigs n.natAbs else natDigs n.toNat

-- ===========================================================================
-- External rational engine (dynamic_fraction.h), modelled from its contract
-- ===========================================================================

/-- Modelled from the spec: `df_cmp` of the external rational engine
(`compare-order` in section 6): negative, zero or positive according to the
order of the two reduced fractions. -/
def df_cmp (a b : ℚ) : ℤ := if a < b then -1 else if a = b then 0 else 1

/-- Modelled from the spec: `df_is_integer` of the external rational engine
(`is-integer` in section 6): a reduced fraction is an integer exactly when
its (positive, reduced) denominator is 1. -/
def df_is_integer (q : ℚ) : Bool := q.den == 1

/-- Modelled from the spec: `df_to_string` of the external rational engine —
reduced-form rendering, `num` when the denominator is 1 and `num/den`
otherwise. -/
def fracStr (q : ℚ) : CStr :=
  if q.den = 1 then intStr q.num else intStr q.num ++ '/' :: natDigs q.den

/-- Fueled floor-of-log2 helper; structural recursion on the fuel keeps it
kernel-computable. -/
def log2fuel : ℕ → ℕ → ℕ
  | 0, _ => 0
  | f + 1, n => if n < 2 then 0 else log2fuel f (n / 2) + 1

/-- Floor of the base-2 logarithm of a natural number (0 at 0). -/
def nlog2 (n : ℕ) : ℕ := log2fuel n n

/-- Floor of the base-2 logarithm of the positive rational `p / q`. -/
def qlog2 (p q : ℕ) : ℤ :=
  let k : ℤ := (nlog2 p : ℤ) - (nlog2 q : ℤ)
  if 0 ≤ k then (if q * 2 ^ k.toNat ≤ p then k else k - 1)
  else (if q ≤ p * 2 ^ (-k).toNat then k else k - 1)

/-- Round a rational to the nearest integer, ties to even (the IEEE-754
default rounding used when a value is converted to binary64). -/
def roundHalfEven (x : ℚ) : ℤ :=
  let n := ⌊x⌋
  if x - n < 1 / 2 then n
  else if 1 / 2 < x - n then n + 1
  else if n % 2 = 0 then n else n + 1

/-- Modelled from the spec: conversion of an exact value to the nearest
IEEE-754 binary64 (`di_to_double` / `df_to_double` of the external engines;
spec section 4.5: "standard floating rounding applies").  The result is the
exact rational value of the nearest double: 53 significand bits, round to
nearest with ties to even, subnormals below 2^-1022 with fixed scale
2^-1074.  Values beyond the finite double range (|x| ≥ 2^1024, where the
conversion overflows to infinity) are outside the scope of every claim that
uses this model and are returned unrounded. -/
def roundF64 (x : ℚ) : ℚ :=
  if x = 0 then 0
  else
    let e : ℤ := qlog2 x.num.natAbs x.den
    if 1024 ≤ e then x
    else
      let scale : ℤ := if e < -1022 then -1074 else e - 52
      let m : ℤ := roundHalfEven (|x| * (2 : ℚ) ^ (-scale))
      (if x < 0 then -1 else 1) * (m : ℚ) * (2 : ℚ) ^ scale

/-- The C `round` function on a (finite) double value: round to nearest,
halfway cases away from zero. -/
def c_round (x : ℚ) : ℤ :=
  if 0 ≤ x then ⌊x + 1 / 2⌋ else -⌊-x + 1 / 2⌋

/-- The C cast `(int64_t)` of an integral double value: exact inside the
`int64_t` range; outside it the behavior is undefined, modelled as `none`. -/
def castInt64 (v : ℤ) : Option ℤ :=
  if -(2 ^ 63) ≤ v ∧ v < 2 ^ 63 then some v else none

-- ===========================================================================
-- Value layer: numeric payloads of the three complex types
-- ===========================================================================

/-- Payload of a `dc_complex_int`: two exact integers (struct
`dc_complex_int_internal`, fields `real` and `imag`). -/
structure GaussianC where
  re : ℤ
  im : ℤ
deriving DecidableEq

/-- Payload of a `dc_complex_frac`: two exact reduced rationals (struct
`dc_complex_frac_internal`, fields `real` and `imag`). -/
structure RationalC where
  re : ℚ
  im : ℚ
deriving DecidableEq

/-- Value part of `dc_int_add`: componentwise `di_add`. -/
def dc_int_add_val (a b : GaussianC) : GaussianC := ⟨a.re + b.re, a.im + b.im⟩

/-- Value part of `dc_int_sub`: componentwise `di_sub`. -/
def dc_int_sub_val (a b : GaussianC) : GaussianC := ⟨a.re - b.re, a.im - b.im⟩

/-- Value part of `dc_int_mul`: `(ac - bd) + (ad + bc)i`. -/
def dc_int_mul_val (a b : GaussianC) : GaussianC :=
  ⟨a.re * b.re - a.im * b.im, a.re * b.im + a.im * b.re⟩

/-- Value part of `dc_int_negate`. -/
def dc_int_negate_val (c : GaussianC) : GaussianC := ⟨-c.re, -c.im⟩

/-- Value part of `dc_int_conj`. -/
def dc_int_conj_val (c : GaussianC) : GaussianC := ⟨c.re, -c.im⟩

/-- Value part of `dc_int_is_zero`: `di_is_zero` on both components. -/
def dc_int_is_zero_val (c : GaussianC) : Bool := c.re == 0 && c.im == 0

/-- Value part of `dc_int_to_frac` (conversion layer): each component
becomes the fraction `n / 1` via `df_from_di(c, di_one())`. -/
def dc_int_to_frac_val (c : GaussianC) : RationalC := ⟨(c.re : ℚ), (c.im : ℚ)⟩

/-- Value part of `dc_frac_from_ints`: both components built by
`df_from_ints` (numerator over denominator, reduced by the engine). -/
def dc_frac_from_ints_val (rn rd iN iD : ℤ) : RationalC :=
  ⟨(rn : ℚ) / (rd : ℚ), (iN : ℚ) / (iD : ℚ)⟩

/-- Value part of `dc_frac_add`: componentwise `df_add`. -/
def dc_frac_add_val (a b : RationalC) : RationalC := ⟨a.re + b.re, a.im + b.im⟩

/-- Value part of `dc_frac_sub`: componentwise `df_sub`. -/
def dc_frac_sub_val (a b : RationalC) : RationalC := ⟨a.re - b.re, a.im - b.im⟩

/-- Value part of `dc_frac_mul`: `(ac - bd) + (ad + bc)i`. -/
def dc_frac_mul_val (a b : RationalC) : RationalC :=
  ⟨a.re * b.re - a.im * b.im, a.re * b.im + a.im * b.re⟩

/-- Value part of `dc_frac_div`, translated statement by statement from the
body of `dc_frac_div` (lines 800-836): numerators `ac + bd` and `bc - ad`,
both divided by `denom = c² + d²`. -/
def dc_frac_div_val (a b : RationalC) : RationalC :=
  let c2 := b.re * b.re
  let d2 := b.im * b.im
  let denom := c2 + d2
  let ac := a.re * b.re
  let bd := a.im * b.im
  let bc := a.im * b.re
  let ad := a.re * b.im
  let real_num := ac + bd
  let imag_num := bc - ad
  ⟨real_num / denom, imag_num / denom⟩

/-- Value part of `dc_frac_negate`. -/
def dc_frac_negate_val (c : RationalC) : RationalC := ⟨-c.re, -c.im⟩

/-- Value part of `dc_frac_conj`. -/
def dc_frac_conj_val (c : RationalC) : RationalC := ⟨c.re, -c.im⟩

/-- Value part of `dc_frac_is_zero`: `df_is_zero` on both components. -/
def dc_frac_is_zero_val (c : RationalC) : Bool := c.re == 0 && c.im == 0

/-- Value part of `dc_frac_is_gaussian_int`: `df_is_integer` on both
components (line 910-913). -/
def dc_frac_is_gaussian_int_val (c : RationalC) : Bool :=
  df_is_integer c.re && df_is_integer c.im

/-- Value part of `dc_frac_to_int` (conversion layer, lines 1382-1393): each
component is converted to a double (`df_to_double`, modelled by `roundF64`),
rounded by the C `round` function and cast to `int64_t`; `none` when the
cast leaves the `int64_t` range (undefined behavior in C). -/
def dc_frac_to_int_val (c : RationalC) : Option GaussianC :=
  match castInt64 (c_round (roundF64 c.re)), castInt64 (c_round (roundF64 c.im)) with
  | some r, some i => some ⟨r, i⟩
  | _, _ => none

/-- Value part of `dc_int_to_string` (lines 606-648): renders both
components with the integer engine's base-10 renderer, then branches on
zero-ness, on string comparison of the imaginary text with `"1"` / `"-1"`,
and on `di_is_negative(imag)`. -/
def dc_int_to_string_val (c : GaussianC) : CStr :=
  let real_str := intStr c.re
  let imag_str := intStr c.im
  let real_zero := c.re == 0
  let imag_zero := c.im == 0
  let imag_neg := decide (c.im < 0)
  if real_zero && imag_zero then ['0']
  else if imag_zero then real_str
  else if real_zero then
    if imag_str == ['1'] then ['i']
    else if imag_str == ['-', '1'] then ['-', 'i']
    else imag_str ++ ['i']
  else
    if imag_str == ['1'] then real_str ++ ['+', 'i']
    else if imag_str == ['-', '1'] then real_str ++ ['-', 'i']
    else if imag_neg then real_str ++ imag_str ++ ['i']
    else real_str ++ '+' :: imag_str ++ ['i']

/-- Value part of `dc_frac_to_string` (lines 915-965): renders both
components with the rational engine's renderer, then branches on zero-ness,
on `df_cmp` of the imaginary component against `df_one()` / `df_neg_one()`,
and on `df_is_negative(imag)`. -/
def dc_frac_to_string_val (c : RationalC) : CStr :=
  let real_str := fracStr c.re
  let imag_str := fracStr c.im
  let real_zero := c.re == 0
  let imag_zero := c.im == 0
  let imag_neg := decide (c.im < 0)
  if real_zero && imag_zero then ['0']
  else if imag_zero then real_str
  else if real_zero then
    if df_cmp c.im 1 == 0 then ['i']
    else if df_cmp c.im (-1) == 0 then ['-', 'i']
    else imag_str ++ ['i']
  else
    if df_cmp c.im 1 == 0 then real_str ++ ['+', 'i']
    else if df_cmp c.im (-1) == 0 then real_str ++ ['-', 'i']
    else if imag_neg then real_str ++ imag_str ++ ['i']
    else real_str ++ '+' :: imag_str ++ ['i']

/-- Written from the spec's words (section 4.4): the shared string-formatting
table, parameterized by the per-type component renderer and the component
queries "is zero", "is exactly one", "is exactly negative one" and
"is negative".  The embedded `dc_int_to_string_val` / `dc_frac_to_string_val`
are compared against this table. -/
def specSharedFormat {α : Type} (render : α → CStr)
    (isZero isOne isNegOne isNeg : α → Bool) (R I : α) : CStr :=
  if isZero R && isZero I then ['0']
  else if isZero I then render R
  else if isZero R then
    if isOne I then ['i']
    else if isNegOne I then ['-', 'i']
    else render I ++ ['i']
  else
    render R ++
      (if isOne I then ['+', 'i']
       else if isNegOne I then ['-', 'i']
       else if isNeg I then render I ++ ['i']
       else '+' :: render I ++ ['i'])

-- ===========================================================================
-- Symbolic payload of dc_complex_double
-- ===========================================================================

/-- Payload of a `dc_complex_double`: the C99 `double complex value` field,
embedded symbolically.  Machine-`double` arguments supplied by the host are
carried as opaque rational tokens; the claims in scope never interpret
IEEE-754 values, they only concern the guard and reference-count structure
of the `dc_double_*` functions. -/
inductive CplxE : Type
  | ofPair (re im : ℚ)
  | fromPolar (mag angle : ℚ)
  | addE (a b : CplxE)
  | subE (a b : CplxE)
  | mulE (a b : CplxE)
  | divE (a b : CplxE)
  | negE (a : CplxE)
  | conjE (a : CplxE)
  | cexp (a : CplxE)
  | clog (a : CplxE)
  | cpow (a b : CplxE)
  | csqrt (a : CplxE)
  | csin (a : CplxE)
  | ccos (a : CplxE)
  | ctan (a : CplxE)
  | csinh (a : CplxE)
  | ccosh (a : CplxE)
  | ctanh (a : CplxE)
deriving DecidableEq

/-- A machine `double` returned by an accessor of the float type, symbolic. -/
inductive DblTok : Type
  | reOf (z : CplxE)
  | imOf (z : CplxE)
  | absOf (z : CplxE)
  | argOf (z : CplxE)
deriving DecidableEq

/-- Componentwise reading of a symbolic float payload, defined only on
literal pairs.  Compound expressions would require interpreting IEEE-754
transcendentals, which no claim in scope does. -/
def cplxKnown? : CplxE → Option (ℚ × ℚ)
  | .ofPair re im => some (re, im)
  | _ => none

/-- Value part of `dc_double_is_zero`: `creal == 0.0 && cimag == 0.0` on a
literal pair.  On compound symbolic values the test is unmodelled and
returns `false`; no claim in scope evaluates it there. -/
def dc_double_is_zero_val (z : CplxE) : Bool :=
  match cplxKnown? z with
  | some (re, im) => re == 0 && im == 0
  | none => false

-- ===========================================================================
-- Object layer: reference-counted cells and NULL-able handles
-- ===========================================================================

/-- `SIZE_MAX` of the (LP64) target: the saturated reference count stored
into singleton cells is `SIZE_MAX / 2`. -/
def SIZE_MAX : ℕ := 2 ^ 64 - 1

/-- A heap cell of one of the three complex types: the `ref_count` field (a
`size_t`, kept below `2^64`), whether the cell is one of the process-wide
singleton slots (the C code tests pointer identity against the slots;
the embedding records the fact as a flag), and the numeric payload. -/
structure RC (α : Type) where
  refCount : ℕ
  isSingleton : Bool
  payload : α
deriving DecidableEq

/-- A fresh allocation: `DC_MALLOC` followed by
`DC_ATOMIC_STORE(&result->ref_count, 1)`. -/
def rcNew {α : Type} (v : α) : RC α := ⟨1, false, v⟩

/-- A `DC_ASSERT` failure, which aborts the calling process. -/
inductive DcErr : Type
  | assertNull
  | assertDivZero
  | assertBound
deriving DecidableEq

/-- Unary operation shape shared by most of the surface: one NULL guard,
then a fresh cell around the computed payload. -/
def op1 {α β : Type} (f : α → β) : Option (RC α) → Except DcErr (RC β)
  | none => .error .assertNull
  | some c => .ok (rcNew (f c.payload))

/-- Binary operation shape: NULL guards on both operands in order, then a
fresh cell around the computed payload. -/
def op2 {α β γ : Type} (f : α → β → γ) :
    Option (RC α) → Option (RC β) → Except DcErr (RC γ)
  | none, _ => .error .assertNull
  | some _, none => .error .assertNull
  | some a, some b => .ok (rcNew (f a.payload b.payload))

/-- Query shape (predicates, accessors, string rendering): one NULL guard,
then a plain value. -/
def query1 {α β : Type} (f : α → β) : Option (RC α) → Except DcErr β
  | none => .error .assertNull
  | some c => .ok (f c.payload)

/-- Binary query shape (`dc_*_eq`): NULL guards on both operands. -/
def query2 {α β : Type} (f : α → α → β) :
    Option (RC α) → Option (RC α) → Except DcErr β
  | none, _ => .error .assertNull
  | some _, none => .error .assertNull
  | some a, some b => .ok (f a.payload b.payload)

/-- Observable outcome of a `dc_*_release` call.  `untouched`: the early
`if (!c || !*c) return;` path — nothing happens at all.  `kept o`: the
caller's handle is set to NULL and the cell survives with the decremented
count `o.refCount`.  `freedObj`: the caller's handle is set to NULL and the
cell is deallocated. -/
inductive RelEffect (α : Type) : Type
  | untouched
  | kept (o : RC α)
  | freedObj
deriving DecidableEq

/-- The shared body of `dc_int_release` / `dc_frac_release` /
`dc_double_release` (lines 459-477, 724-742, 1037-1053).  The argument is
the pointer-to-handle: `none` is a NULL pointer, `some none` a pointer to a
NULL handle.  `DC_ATOMIC_FETCH_SUB` returns the old count and wraps on
`size_t`; only when the old count is 1 and the cell is not one of the
singleton slots is the cell deallocated. -/
def rcRelease {α : Type} : Option (Option (RC α)) → RelEffect α
  | none => .untouched
  | some none => .untouched
  | some (some c) =>
    let old_count := c.refCount
    let newCount := (old_count + (2 ^ 64 - 1)) % 2 ^ 64
    if old_count = 1 then
      if c.isSingleton then .kept { c with refCount := newCount }
      else .freedObj
    else .kept { c with refCount := newCount }

/-- Iterate a release function on a surviving cell: after each release that
keeps the cell alive, the caller re-acquires a handle to it and releases
again; `none` records that some release along the way deallocated it. -/
def relNTimes {α : Type} (rel : Option (Option (RC α)) → RelEffect α)
    (c : RC α) : ℕ → Option (RC α)
  | 0 => some c
  | n + 1 =>
    match relNTimes rel c n with
    | none => none
    | some o =>
      match rel (some (some o)) with
      | .kept o2 => some o2
      | .freedObj => none
      | .untouched => some o

/-- The shared body of the fifteen singleton accessors (for example
`dc_int_zero`, lines 413-419): on first use the slot is created with count
`SIZE_MAX / 2` and marked as a singleton slot; every call returns the slot
through `retain` (count + 1, wrapping on `size_t`).  Returns the caller's
cell and the new slot state. -/
def singletonAcc {α : Type} (initVal : α) (slot : Option (RC α)) :
    RC α × Option (RC α) :=
  match slot with
  | none =>
    let s : RC α := ⟨(SIZE_MAX / 2 + 1) % 2 ^ 64, true, initVal⟩
    (s, some s)
  | some s =>
    let s2 : RC α := { s with refCount := (s.refCount + 1) % 2 ^ 64 }
    (s2, some s2)

/-- The shared body of `dc_int_retain` / `dc_frac_retain` /
`dc_double_retain`: NULL asserts; otherwise `DC_ATOMIC_FETCH_ADD` bumps the
count (wrapping on `size_t`) and the same cell is returned. -/
def rcRetain {α : Type} : Option (RC α) → Except DcErr (RC α)
  | none => .error .assertNull
  | some c => .ok { c with refCount := (c.refCount + 1) % 2 ^ 64 }

-- ===========================================================================
-- Public surface: dc_complex_frac (lines 654-965)
-- ===========================================================================

/-- `dc_frac_from_ints` (lines 654-662).  The external `df_from_ints`
asserts on a zero denominator (spec section 7, "zero divisor"); that guard
is modelled here since the engine is external. -/
def dc_frac_from_ints (rn rd iN iD : ℤ) : Except DcErr (RC RationalC) :=
  if rd = 0 ∨ iD = 0 then .error .assertDivZero
  else .ok (rcNew (dc_frac_from_ints_val rn rd iN iD))

/-- `dc_frac_from_df` (lines 664-676): NULL asserts on both engine handles,
then a fresh cell retaining both components. -/
def dc_frac_from_df : Option ℚ → Option ℚ → Except DcErr (RC RationalC)
  | none, _ => .error .assertNull
  | some _, none => .error .assertNull
  | some re, some im => .ok (rcNew ⟨re, im⟩)

/-- `dc_frac_zero` (lines 678-684), slot-state passing. -/
def dc_frac_zero : Option (RC RationalC) → RC RationalC × Option (RC RationalC) :=
  singletonAcc ⟨0, 0⟩

/-- `dc_frac_one` (lines 686-692). -/
def dc_frac_one : Option (RC RationalC) → RC RationalC × Option (RC RationalC) :=
  singletonAcc ⟨1, 0⟩

/-- `dc_frac_i` (lines 694-700). -/
def dc_frac_i : Option (RC RationalC) → RC RationalC × Option (RC RationalC) :=
  singletonAcc ⟨0, 1⟩

/-- `dc_frac_neg_one` (lines 702-708). -/
def dc_frac_neg_one : Option (RC RationalC) → RC RationalC × Option (RC RationalC) :=
  singletonAcc ⟨-1, 0⟩

/-- `dc_frac_neg_i` (lines 710-716). -/
def dc_frac_neg_i : Option (RC RationalC) → RC RationalC × Option (RC RationalC) :=
  singletonAcc ⟨0, -1⟩

/-- `dc_frac_retain` (lines 718-722). -/
def dc_frac_retain : Option (RC RationalC) → Except DcErr (RC RationalC) := rcRetain

/-- `dc_frac_release` (lines 724-742). -/
def dc_frac_release : Option (Option (RC RationalC)) → RelEffect RationalC := rcRelease

/-- `dc_frac_copy` (lines 744-747): a fresh independent cell with the same
components. -/
def dc_frac_copy : Option (RC RationalC) → Except DcErr (RC RationalC) :=
  op1 (fun v => v)

/-- `dc_frac_add` (lines 749-760). -/
def dc_frac_add : Option (RC RationalC) → Option (RC RationalC) → Except DcErr (RC RationalC) :=
  op2 dc_frac_add_val

/-- `dc_frac_sub` (lines 762-773). -/
def dc_frac_sub : Option (RC RationalC) → Option (RC RationalC) → Except DcErr (RC RationalC) :=
  op2 dc_frac_sub_val

/-- `dc_frac_mul` (lines 775-798). -/
def dc_frac_mul : Option (RC RationalC) → Option (RC RationalC) → Except DcErr (RC RationalC) :=
  op2 dc_frac_mul_val

/-- `dc_frac_div` (lines 800-836): NULL asserts on both operands, a
division-by-zero assert on the divisor, then a fresh cell around the
quotient. -/
def dc_frac_div : Option (RC RationalC) → Option (RC RationalC) → Except DcErr (RC RationalC)
  | none, _ => .error .assertNull
  | some _, none => .error .assertNull
  | some a, some b =>
    if dc_frac_is_zero_val b.payload then .error .assertDivZero
    else .ok (rcNew (dc_frac_div_val a.payload b.payload))

/-- `dc_frac_negate` (lines 838-848). -/
def dc_frac_negate : Option (RC RationalC) → Except DcErr (RC RationalC) :=
  op1 dc_frac_negate_val

/-- `dc_frac_conj` (lines 850-860). -/
def dc_frac_conj : Option (RC RationalC) → Except DcErr (RC RationalC) :=
  op1 dc_frac_conj_val

/-- `dc_frac_reciprocal` (lines 862-876): NULL and division-by-zero asserts,
then the multiplicative identity `1 + 0i` (`df_one()`, `df_zero()`) is built
and divided by the operand through `dc_frac_div` itself. -/
def dc_frac_reciprocal : Option (RC RationalC) → Except DcErr (RC RationalC)
  | none => .error .assertNull
  | some c =>
    if dc_frac_is_zero_val c.payload then .error .assertDivZero
    else
      let num := rcNew (⟨1, 0⟩ : RationalC)
      dc_frac_div (some num) (some c)

/-- `dc_frac_real` (lines 878-881): a retained handle to the component. -/
def dc_frac_real : Option (RC RationalC) → Except DcErr ℚ := query1 (fun v => v.re)

/-- `dc_frac_imag` (lines 883-886). -/
def dc_frac_imag : Option (RC RationalC) → Except DcErr ℚ := query1 (fun v => v.im)

/-- `dc_frac_eq` (lines 888-893): `df_eq` on both components. -/
def dc_frac_eq : Option (RC RationalC) → Option (RC RationalC) → Except DcErr Bool :=
  query2 (fun a b => a.re == b.re && a.im == b.im)

/-- `dc_frac_is_zero` (lines 895-898). -/
def dc_frac_is_zero : Option (RC RationalC) → Except DcErr Bool :=
  query1 dc_frac_is_zero_val

/-- `dc_frac_is_real` (lines 900-903). -/
def dc_frac_is_real : Option (RC RationalC) → Except DcErr Bool :=
  query1 (fun v => v.im == 0)

/-- `dc_frac_is_imag` (lines 905-908). -/
def dc_frac_is_imag : Option (RC RationalC) → Except DcErr Bool :=
  query1 (fun v => v.re == 0)

/-- `dc_frac_is_gaussian_int` (lines 910-913). -/
def dc_frac_is_gaussian_int : Option (RC RationalC) → Except DcErr Bool :=
  query1 dc_frac_is_gaussian_int_val

/-- `dc_frac_to_string` (lines 915-965); the caller owns the text. -/
def dc_frac_to_string : Option (RC RationalC) → Except DcErr CStr :=
  query1 dc_frac_to_string_val

-- ===========================================================================
-- Public surface: dc_complex_int (lines 388-648)
-- ===========================================================================

/-- `dc_int_from_ints` (lines 388-397): a fresh cell from two machine
integers (modelled as unbounded, matching `di_from_int64`). -/
def dc_int_from_ints (re im : ℤ) : RC GaussianC := rcNew ⟨re, im⟩

/-- `dc_int_from_di` (lines 399-411): NULL asserts on both engine handles,
then a fresh cell retaining both components. -/
def dc_int_from_di : Option ℤ → Option ℤ → Except DcErr (RC GaussianC)
  | none, _ => .error .assertNull
  | some _, none => .error .assertNull
  | some re, some im => .ok (rcNew ⟨re, im⟩)

/-- `dc_int_zero` (lines 413-419), slot-state passing. -/
def dc_int_zero : Option (RC GaussianC) → RC GaussianC × Option (RC GaussianC) :=
  singletonAcc ⟨0, 0⟩

/-- `dc_int_one` (lines 421-427). -/
def dc_int_one : Option (RC GaussianC) → RC GaussianC × Option (RC GaussianC) :=
  singletonAcc ⟨1, 0⟩

/-- `dc_int_i` (lines 429-435). -/
def dc_int_i : Option (RC GaussianC) → RC GaussianC × Option (RC GaussianC) :=
  singletonAcc ⟨0, 1⟩

/-- `dc_int_neg_one` (lines 437-443). -/
def dc_int_neg_one : Option (RC GaussianC) → RC GaussianC × Option (RC GaussianC) :=
  singletonAcc ⟨-1, 0⟩

/-- `dc_int_neg_i` (lines 445-451). -/
def dc_int_neg_i : Option (RC GaussianC) → RC GaussianC × Option (RC GaussianC) :=
  singletonAcc ⟨0, -1⟩

/-- `dc_int_retain` (lines 453-457). -/
def dc_int_retain : Option (RC GaussianC) → Except DcErr (RC GaussianC) := rcRetain

/-- `dc_int_release` (lines 459-477). -/
def dc_int_release : Option (Option (RC GaussianC)) → RelEffect GaussianC := rcRelease

/-- `dc_int_copy` (lines 479-482). -/
def dc_int_copy : Option (RC GaussianC) → Except DcErr (RC GaussianC) :=
  op1 (fun v => v)

/-- `dc_int_add` (lines 484-495). -/
def dc_int_add : Option (RC GaussianC) → Option (RC GaussianC) → Except DcErr (RC GaussianC) :=
  op2 dc_int_add_val

/-- `dc_int_sub` (lines 497-508). -/
def dc_int_sub : Option (RC GaussianC) → Option (RC GaussianC) → Except DcErr (RC GaussianC) :=
  op2 dc_int_sub_val

/-- `dc_int_mul` (lines 510-533). -/
def dc_int_mul : Option (RC GaussianC) → Option (RC GaussianC) → Except DcErr (RC GaussianC) :=
  op2 dc_int_mul_val

/-- `dc_int_to_frac` (conversion layer, lines 1351-1362). -/
def dc_int_to_frac : Option (RC GaussianC) → Except DcErr (RC RationalC) :=
  op1 dc_int_to_frac_val

/-- `dc_int_div` (lines 535-548): NULL asserts on both operands, then both
are promoted losslessly with `dc_int_to_frac` and divided with
`dc_frac_div`; the result is always a `dc_complex_frac`. -/
def dc_int_div : Option (RC GaussianC) → Option (RC GaussianC) → Except DcErr (RC RationalC)
  | none, _ => .error .assertNull
  | some _, none => .error .assertNull
  | some a, some b =>
    let af := rcNew (dc_int_to_frac_val a.payload)
    let bf := rcNew (dc_int_to_frac_val b.payload)
    dc_frac_div (some af) (some bf)

/-- `dc_int_negate` (lines 550-560). -/
def dc_int_negate : Option (RC GaussianC) → Except DcErr (RC GaussianC) :=
  op1 dc_int_negate_val

/-- `dc_int_conj` (lines 562-572). -/
def dc_int_conj : Option (RC GaussianC) → Except DcErr (RC GaussianC) :=
  op1 dc_int_conj_val

/-- `dc_int_real` (lines 574-577). -/
def dc_int_real : Option (RC GaussianC) → Except DcErr ℤ := query1 (fun v => v.re)

/-- `dc_int_imag` (lines 579-582). -/
def dc_int_imag : Option (RC GaussianC) → Except DcErr ℤ := query1 (fun v => v.im)

/-- `dc_int_eq` (lines 584-589): `di_compare == 0` on both components. -/
def dc_int_eq : Option (RC GaussianC) → Option (RC GaussianC) → Except DcErr Bool :=
  query2 (fun a b => a.re == b.re && a.im == b.im)

/-- `dc_int_is_zero` (lines 591-594). -/
def dc_int_is_zero : Option (RC GaussianC) → Except DcErr Bool :=
  query1 dc_int_is_zero_val

/-- `dc_int_is_real` (lines 596-599). -/
def dc_int_is_real : Option (RC GaussianC) → Except DcErr Bool :=
  query1 (fun v => v.im == 0)

/-- `dc_int_is_imag` (lines 601-604). -/
def dc_int_is_imag : Option (RC GaussianC) → Except DcErr Bool :=
  query1 (fun v => v.re == 0)

/-- `dc_int_to_string` (lines 606-648); the caller owns the text. -/
def dc_int_to_string : Option (RC GaussianC) → Except DcErr CStr :=
  query1 dc_int_to_string_val

-- ===========================================================================
-- Public surface: dc_complex_double (lines 971-1345)
-- ===========================================================================

/-- `dc_double_from_doubles` (lines 971-979).  The two machine doubles are
carried as their exact rational values (every finite double is a rational;
NaN and infinity are outside this model). -/
def dc_double_from_doubles (re im : ℚ) : RC CplxE := rcNew (.ofPair re im)

/-- `dc_double_from_polar` (lines 981-989): `magnitude * cexp(I * angle)`,
kept symbolic. -/
def dc_double_from_polar (mag angle : ℚ) : RC CplxE := rcNew (.fromPolar mag angle)

/-- `dc_double_zero` (lines 991-997), slot-state passing. -/
def dc_double_zero : Option (RC CplxE) → RC CplxE × Option (RC CplxE) :=
  singletonAcc (.ofPair 0 0)

/-- `dc_double_one` (lines 999-1005). -/
def dc_double_one : Option (RC CplxE) → RC CplxE × Option (RC CplxE) :=
  singletonAcc (.ofPair 1 0)

/-- `dc_double_i` (lines 1007-1013). -/
def dc_double_i : Option (RC CplxE) → RC CplxE × Option (RC CplxE) :=
  singletonAcc (.ofPair 0 1)

/-- `dc_double_neg_one` (lines 1015-1021). -/
def dc_double_neg_one : Option (RC CplxE) → RC CplxE × Option (RC CplxE) :=
  singletonAcc (.ofPair (-1) 0)

/-- `dc_double_neg_i` (lines 1023-1029). -/
def dc_double_neg_i : Option (RC CplxE) → RC CplxE × Option (RC CplxE) :=
  singletonAcc (.ofPair 0 (-1))

/-- `dc_double_retain` (lines 1031-1035). -/
def dc_double_retain : Option (RC CplxE) → Except DcErr (RC CplxE) := rcRetain

/-- `dc_double_release` (lines 1037-1053). -/
def dc_double_release : Option (Option (RC CplxE)) → RelEffect CplxE := rcRelease

/-- `dc_double_copy` (lines 1055-1058): a fresh cell with the same value. -/
def dc_double_copy : Option (RC CplxE) → Except DcErr (RC CplxE) :=
  op1 (fun v => v)

/-- `dc_double_add` (lines 1060-1071). -/
def dc_double_add : Option (RC CplxE) → Option (RC CplxE) → Except DcErr (RC CplxE) :=
  op2 .addE

/-- `dc_double_sub` (lines 1073-1084). -/
def dc_double_sub : Option (RC CplxE) → Option (RC CplxE) → Except DcErr (RC CplxE) :=
  op2 .subE

/-- `dc_double_mul` (lines 1086-1097). -/
def dc_double_mul : Option (RC CplxE) → Option (RC CplxE) → Except DcErr (RC CplxE) :=
  op2 .mulE

/-- `dc_double_div` (lines 1099-1111): NULL asserts on both operands, then a
division-by-zero assert via `dc_double_is_zero`. -/
def dc_double_div : Option (RC CplxE) → Option (RC CplxE) → Except DcErr (RC CplxE)
  | none, _ => .error .assertNull
  | some _, none => .error .assertNull
  | some a, some b =>
    if dc_double_is_zero_val b.payload then .error .assertDivZero
    else .ok (rcNew (.divE a.payload b.payload))

/-- `dc_double_negate` (lines 1113-1123). -/
def dc_double_negate : Option (RC CplxE) → Except DcErr (RC CplxE) := op1 .negE

/-- `dc_double_conj` (lines 1125-1135). -/
def dc_double_conj : Option (RC CplxE) → Except DcErr (RC CplxE) := op1 .conjE

/-- `dc_double_exp` (lines 1137-1147). -/
def dc_double_exp : Option (RC CplxE) → Except DcErr (RC CplxE) := op1 .cexp

/-- `dc_double_log` (lines 1149-1160): NULL assert, then a log-of-zero
assert via `dc_double_is_zero`. -/
def dc_double_log : Option (RC CplxE) → Except DcErr (RC CplxE)
  | none => .error .assertNull
  | some c =>
    if dc_double_is_zero_val c.payload then .error .assertDivZero
    else .ok (rcNew (.clog c.payload))

/-- `dc_double_pow` (lines 1162-1173). -/
def dc_double_pow : Option (RC CplxE) → Option (RC CplxE) → Except DcErr (RC CplxE) :=
  op2 .cpow

/-- `dc_double_sqrt` (lines 1175-1185). -/
def dc_double_sqrt : Option (RC CplxE) → Except DcErr (RC CplxE) := op1 .csqrt

/-- `dc_double_sin` (lines 1187-1197). -/
def dc_double_sin : Option (RC CplxE) → Except DcErr (RC CplxE) := op1 .csin

/-- `dc_double_cos` (lines 1199-1209). -/
def dc_double_cos : Option (RC CplxE) → Except DcErr (RC CplxE) := op1 .ccos

/-- `dc_double_tan` (lines 1211-1221). -/
def dc_double_tan : Option (RC CplxE) → Except DcErr (RC CplxE) := op1 .ctan

/-- `dc_double_sinh` (lines 1223-1233). -/
def dc_double_sinh : Option (RC CplxE) → Except DcErr (RC CplxE) := op1 .csinh

/-- `dc_double_cosh` (lines 1235-1245). -/
def dc_double_cosh : Option (RC CplxE) → Except DcErr (RC CplxE) := op1 .ccosh

/-- `dc_double_tanh` (lines 1247-1257). -/
def dc_double_tanh : Option (RC CplxE) → Except DcErr (RC CplxE) := op1 .ctanh

/-- `dc_double_real` (lines 1259-1262), symbolic. -/
def dc_double_real : Option (RC CplxE) → Except DcErr DblTok := query1 .reOf

/-- `dc_double_imag` (lines 1264-1267), symbolic. -/
def dc_double_imag : Option (RC CplxE) → Except DcErr DblTok := query1 .imOf

/-- `dc_double_abs` (lines 1269-1272), symbolic. -/
def dc_double_abs : Option (RC CplxE) → Except DcErr DblTok := query1 .absOf

/-- `dc_double_arg` (lines 1274-1277), symbolic. -/
def dc_double_arg : Option (RC CplxE) → Except DcErr DblTok := query1 .argOf

/-- `dc_double_eq` (lines 1279-1284): exact comparison of both components on
literal pairs; on compound symbolic values the comparison falls back to
structural equality (sound when true), unused by any claim in scope. -/
def dc_double_eq : Option (RC CplxE) → Option (RC CplxE) → Except DcErr Bool :=
  query2 (fun a b =>
    match cplxKnown? a, cplxKnown? b with
    | some (ar, ai), some (br, bi) => ar == br && ai == bi
    | _, _ => decide (a = b))

/-- `dc_double_is_zero` (lines 1286-1289). -/
def dc_double_is_zero : Option (RC CplxE) → Except DcErr Bool :=
  query1 dc_double_is_zero_val

/-- `dc_double_is_real` (lines 1291-1294); unmodelled (`false`) on compound
symbolic values, which no claim in scope evaluates. -/
def dc_double_is_real : Option (RC CplxE) → Except DcErr Bool :=
  query1 (fun z => match cplxKnown? z with
    | some (_, im) => im == 0
    | none => false)

/-- `dc_double_is_imag` (lines 1296-1299); unmodelled (`false`) on compound
symbolic values. -/
def dc_double_is_imag : Option (RC CplxE) → Except DcErr Bool :=
  query1 (fun z => match cplxKnown? z with
    | some (re, _) => re == 0
    | none => false)

/-- `dc_double_is_nan` (lines 1301-1304).  The tokens of the model denote
finite doubles, so the test is `false` on literal pairs and unmodelled
(`false`) on compound symbolic values. -/
def dc_double_is_nan : Option (RC CplxE) → Except DcErr Bool :=
  query1 (fun _ => false)

/-- `dc_double_is_inf` (lines 1306-1309); same modelling note as
`dc_double_is_nan`. -/
def dc_double_is_inf : Option (RC CplxE) → Except DcErr Bool :=
  query1 (fun _ => false)

/-- `dc_double_to_string` (lines 1311-1345).  The `%g` rendering of
floating-point components is not modelled (`none`); only the NULL guard is
translated, and no claim in scope inspects the rendered text. -/
def dc_double_to_string : Option (RC CplxE) → Except DcErr (Option CStr) :=
  query1 (fun _ => none)

-- ===========================================================================
-- Conversion layer (lines 1351-1423); dc_int_to_frac is defined above
-- ===========================================================================

/-- Value part of `dc_int_to_double` (lines 1364-1371): `di_to_double` on
both components. -/
def dc_int_to_double_val (g : GaussianC) : CplxE :=
  .ofPair (roundF64 (g.re : ℚ)) (roundF64 (g.im : ℚ))

/-- `dc_int_to_double` (lines 1364-1371). -/
def dc_int_to_double : Option (RC GaussianC) → Except DcErr (RC CplxE) :=
  op1 dc_int_to_double_val

/-- Value part of `dc_frac_to_double` (lines 1373-1380): `df_to_double` on
both components. -/
def dc_frac_to_double_val (q : RationalC) : CplxE :=
  .ofPair (roundF64 q.re) (roundF64 q.im)

/-- `dc_frac_to_double` (lines 1373-1380). -/
def dc_frac_to_double : Option (RC RationalC) → Except DcErr (RC CplxE) :=
  op1 dc_frac_to_double_val

/-- `dc_frac_to_int` (lines 1382-1393); the payload is `none` when the
`int64_t` cast is undefined. -/
def dc_frac_to_int : Option (RC RationalC) → Except DcErr (RC (Option GaussianC)) :=
  op1 dc_frac_to_int_val

/-- Value part of `dc_double_to_int` (lines 1395-1405): round both
components of a literal pair and cast to `int64_t`; `none` on compound
symbolic values (unmodelled transcendentals) or when the cast is undefined. -/
def dc_double_to_int_val (z : CplxE) : Option GaussianC :=
  match cplxKnown? z with
  | some (re, im) =>
    match castInt64 (c_round re), castInt64 (c_round im) with
    | some r, some i => some ⟨r, i⟩
    | _, _ => none
  | none => none

/-- `dc_double_to_int` (lines 1395-1405). -/
def dc_double_to_int : Option (RC CplxE) → Except DcErr (RC (Option GaussianC)) :=
  op1 dc_double_to_int_val

/-- Value part of `dc_double_to_frac` (lines 1407-1423).  The
best-rational-approximation construction (`df_from_double`) is performed by
the external rational engine and its value is not modelled (`none`); no
claim in scope inspects it. -/
def dc_double_to_frac_val (_z : CplxE) (_bound : ℤ) : Option RationalC := none

/-- `dc_double_to_frac` (lines 1407-1423): NULL assert, then an assert that
`max_denominator` is positive. -/
def dc_double_to_frac (c : Option (RC CplxE)) (max_denominator : ℤ) :
    Except DcErr (RC (Option RationalC)) :=
  match c with
  | none => .error .assertNull
  | some c =>
    if max_denominator ≤ 0 then .error .assertBound
    else .ok (rcNew (dc_double_to_frac_val c.payload max_denominator))

/-- The fail-fast NULL discipline for a unary handle-taking operation. -/
def nullAsserts1 {α β : Type} (f : Option α → Except DcErr β) : Prop :=
  f none = .error .assertNull

/-- The fail-fast NULL discipline for a binary handle-taking operation:
either operand NULL asserts. -/
def nullAsserts2 {α β γ : Type} (f : Option α → Option β → Except DcErr γ) : Prop :=
  (∀ b, f none b = .error .assertNull) ∧ ∀ a, f (some a) none = .error .assertNull

/-- A unary operation constructs fresh cells: every successful result has
reference count exactly 1. -/
def freshOk1 {α β : Type} (f : Option α → Except DcErr (RC β)) : Prop :=
  ∀ c r, f c = .ok r → r.refCount = 1

/-- A binary operation constructs fresh cells: every successful result has
reference count exactly 1. -/
def freshOk2 {α β γ : Type} (f : Option α → Option β → Except DcErr (RC γ)) : Prop :=
  ∀ a b r, f a b = .ok r → r.refCount = 1

-- ===========================================================================
-- Helper lemmas
-- ===========================================================================

theorem op1_ok_refCount {α β : Type} {f : α → β} {c : Option (RC α)} {r : RC β}
    (h : op1 f c = .ok r) : r.refCount = 1 := by
  cases c with
  | none => simp [op1] at h
  | some c =>
    simp only [op1, Except.ok.injEq] at h
    rw [← h]; rfl

theorem op2_ok_refCount {α β γ : Type} {f : α → β → γ}
    {a : Option (RC α)} {b : Option (RC β)} {r : RC γ}
    (h : op2 f a b = .ok r) : r.refCount = 1 := by
  cases a with
  | none => simp [op2] at h
  | some a =>
    cases b with
    | none => simp [op2] at h
    | some b =>
      simp only [op2, Except.ok.injEq] at h
      rw [← h]; rfl

theorem dc_frac_div_ok_refCount {a b : Option (RC RationalC)} {r : RC RationalC}
    (h : dc_frac_div a b = .ok r) : r.refCount = 1 := by
  cases a with
  | none => exact Except.noConfusion h
  | some a =>
    cases b with
    | none => exact Except.noConfusion h
    | some b =>
      simp only [dc_frac_div] at h
      split at h
      · exact Except.noConfusion h
      · simp only [Except.ok.injEq] at h
        rw [← h]; rfl

theorem dc_int_div_ok_refCount {a b : Option (RC GaussianC)} {r : RC RationalC}
    (h : dc_int_div a b = .ok r) : r.refCount = 1 := by
  cases a with
  | none => exact Except.noConfusion h
  | some a =>
    cases b with
    | none => exact Except.noConfusion h
    | some b =>
      simp only [dc_int_div] at h
      exact dc_frac_div_ok_refCount h

theorem dc_frac_reciprocal_ok_refCount {c : Option (RC RationalC)} {r : RC RationalC}
    (h : dc_frac_reciprocal c = .ok r) : r.refCount = 1 := by
  cases c with
  | none => exact Except.noConfusion h
  | some c =>
    simp only [dc_frac_reciprocal] at h
    split at h
    · exact Except.noConfusion h
    · exact dc_frac_div_ok_refCount h

theorem dc_frac_from_ints_ok_refCount {rn rd iN iD : ℤ} {r : RC RationalC}
    (h : dc_frac_from_ints rn rd iN iD = .ok r) : r.refCount = 1 := by
  unfold dc_frac_from_ints at h
  split at h
  · exact Except.noConfusion h
  · simp only [Except.ok.injEq] at h
    rw [← h]; rfl

theorem dc_int_from_di_ok_refCount {a b : Option ℤ} {r : RC GaussianC}
    (h : dc_int_from_di a b = .ok r) : r.refCount = 1 := by
  cases a with
  | none => exact Except.noConfusion h
  | some a =>
    cases b with
    | none => exact Except.noConfusion h
    | some b =>
      simp only [dc_int_from_di, Except.ok.injEq] at h
      rw [← h]; rfl

theorem dc_frac_from_df_ok_refCount {a b : Option ℚ} {r : RC RationalC}
    (h : dc_frac_from_df a b = .ok r) : r.refCount = 1 := by
  cases a with
  | none => exact Except.noConfusion h
  | some a =>
    cases b with
    | none => exact Except.noConfusion h
    | some b =>
      simp only [dc_frac_from_df, Except.ok.injEq] at h
      rw [← h]; rfl

theorem dc_double_div_ok_refCount {a b : Option (RC CplxE)} {r : RC CplxE}
    (h : dc_double_div a b = .ok r) : r.refCount = 1 := by
  cases a with
  | none => exact Except.noConfusion h
  | some a =>
    cases b with
    | none => exact Except.noConfusion h
    | some b =>
      simp only [dc_double_div] at h
      split at h
      · exact Except.noConfusion h
      · simp only [Except.ok.injEq] at h
        rw [← h]; rfl

theorem dc_double_log_ok_refCount {c : Option (RC CplxE)} {r : RC CplxE}
    (h : dc_double_log c = .ok r) : r.refCount = 1 := by
  cases c with
  | none => exact Except.noConfusion h
  | some c =>
    simp only [dc_double_log] at h
    split at h
    · exact Except.noConfusion h
    · simp only [Except.ok.injEq] at h
      rw [← h]; rfl

theorem dc_double_to_frac_ok_refCount {c : Option (RC CplxE)} {n : ℤ}
    {r : RC (Option RationalC)} (h : dc_double_to_frac c n = .ok r) : r.refCount = 1 := by
  cases c with
  | none => exact Except.noConfusion h
  | some c =>
    simp only [dc_double_to_frac] at h
    split at h
    · exact Except.noConfusion h
    · simp only [Except.ok.injEq] at h
      rw [← h]; rfl

theorem rcRetain_ok_gt_one {α : Type} {c : RC α} (h1 : 1 ≤ c.refCount)
    (h2 : c.refCount + 1 < 2 ^ 64) {r : RC α}
    (h : rcRetain (some c) = .ok r) : 1 < r.refCount := by
  simp only [rcRetain, Except.ok.injEq] at h
  rw [← h]
  simp only [Nat.mod_eq_of_lt h2]
  omega

theorem singletonAcc_gt_one {α : Type} (v : α) (slot : Option (RC α))
    (hs : ∀ s, slot = some s → 1 ≤ s.refCount ∧ s.refCount + 1 < 2 ^ 64) :
    1 < ((singletonAcc v slot).1).refCount := by
  cases slot with
  | none => norm_num [singletonAcc, SIZE_MAX]
  | some s =>
    obtain ⟨h1, h2⟩ := hs s rfl
    simp only [singletonAcc, Nat.mod_eq_of_lt h2]
    omega

theorem frac_is_zero_val_false {q : RationalC} (h : ¬(q.re = 0 ∧ q.im = 0)) :
    dc_frac_is_zero_val q = false := by
  simp only [dc_frac_is_zero_val, Bool.and_eq_false_iff, beq_eq_false_iff_ne, ne_eq]
  tauto

theorem rcRelease_singleton_kept {α : Type} (c : RC α) (hs : c.isSingleton = true) :
    ∃ o : RC α, rcRelease (some (some c)) = .kept o ∧ o.isSingleton = true := by
  unfold rcRelease
  by_cases h1 : c.refCount = 1 <;> simp [h1, hs]

theorem relNTimes_singleton {α : Type} (v : α) (cnt n : ℕ) :
    ∃ o : RC α, relNTimes rcRelease ⟨cnt, true, v⟩ n = some o ∧ o.isSingleton = true := by
  induction n with
  | zero => exact ⟨⟨cnt, true, v⟩, rfl, rfl⟩
  | succ n ih =>
    obtain ⟨o, ho, hs⟩ := ih
    obtain ⟨o2, h2, hs2⟩ := rcRelease_singleton_kept o hs
    refine ⟨o2, ?_, hs2⟩
    simp [relNTimes, ho, h2]

-- ===========================================================================
-- Claims
-- ===========================================================================

/-- C1: for non-NULL operands with a nonzero divisor, `dc_int_div` returns a
`dc_complex_frac` cell (a `RC RationalC` by its very type, never a
`GaussianC`) whose value is exactly `dc_frac_div` applied to the lossless
`dc_int_to_frac` promotions of both operands. -/
theorem dc_int_div_promotes (a b : RC GaussianC)
    (h : ¬(b.payload.re = 0 ∧ b.payload.im = 0)) :
    dc_int_div (some a) (some b) =
      .ok (rcNew (dc_frac_div_val (dc_int_to_frac_val a.payload)
                                  (dc_int_to_frac_val b.payload))) := by
  have hz : dc_frac_is_zero_val (dc_int_to_frac_val b.payload) = false := by
    apply frac_is_zero_val_false
    simpa [dc_int_to_frac_val] using h
  simp [dc_int_div, dc_frac_div, rcNew, hz]

theorem dc_int_div_promotes_witness :
    ¬(((⟨1, -2⟩ : GaussianC).re = 0) ∧ ((⟨1, -2⟩ : GaussianC).im = 0)) ∧
    dc_int_div (some (rcNew ⟨3, 4⟩)) (some (rcNew ⟨1, -2⟩)) =
      .ok (rcNew (dc_frac_div_val (dc_int_to_frac_val ⟨3, 4⟩)
                                  (dc_int_to_frac_val ⟨1, -2⟩))) :=
  ⟨by simp, dc_int_div_promotes (rcNew ⟨3, 4⟩) (rcNew ⟨1, -2⟩) (by norm_num [rcNew])⟩

/-- C2: for non-NULL operands and a nonzero divisor `b = c + d·i`,
`dc_frac_div` returns the fresh cell with real part
`(a_r·c + a_i·d) / (c² + d²)` and imaginary part
`(a_i·c − a_r·d) / (c² + d²)`; a zero divisor is a `DC_ASSERT` failure. -/
theorem dc_frac_div_formula (a b : RC RationalC)
    (h : ¬(b.payload.re = 0 ∧ b.payload.im = 0)) :
    dc_frac_div (some a) (some b) =
      .ok (rcNew ⟨(a.payload.re * b.payload.re + a.payload.im * b.payload.im) /
                    (b.payload.re ^ 2 + b.payload.im ^ 2),
                  (a.payload.im * b.payload.re - a.payload.re * b.payload.im) /
                    (b.payload.re ^ 2 + b.payload.im ^ 2)⟩) := by
  have hz := frac_is_zero_val_false h
  simp only [dc_frac_div, hz, Bool.false_eq_true, if_false, Except.ok.injEq]
  unfold dc_frac_div_val rcNew
  simp only [RC.mk.injEq, RationalC.mk.injEq, true_and]
  constructor <;> ring_nf

theorem dc_frac_div_formula_witness :
    ¬(((⟨1, -2⟩ : RationalC).re = 0) ∧ ((⟨1, -2⟩ : RationalC).im = 0)) ∧
    dc_frac_div (some (rcNew ⟨3, 4⟩)) (some (rcNew ⟨1, -2⟩)) =
      .ok (rcNew ⟨((3 : ℚ) * 1 + 4 * (-2)) / (1 ^ 2 + (-2) ^ 2),
                  ((4 : ℚ) * 1 - 3 * (-2)) / (1 ^ 2 + (-2) ^ 2)⟩) :=
  ⟨by norm_num, dc_frac_div_formula (rcNew ⟨3, 4⟩) (rcNew ⟨1, -2⟩) (by norm_num [rcNew])⟩

/-- C4: `dc_frac_is_gaussian_int` is true exactly when both (reduced,
positive-denominator) components have denominator 1 — equivalently, exactly
when both components are integers. -/
theorem dc_frac_is_gaussian_int_iff (q : RationalC) :
    (dc_frac_is_gaussian_int_val q = true ↔ q.re.den = 1 ∧ q.im.den = 1) ∧
    (dc_frac_is_gaussian_int_val q = true ↔
      (∃ a : ℤ, q.re = (a : ℚ)) ∧ ∃ b : ℤ, q.im = (b : ℚ)) := by
  have hden : ∀ x : ℚ, x.den = 1 ↔ ∃ a : ℤ, x = (a : ℚ) := by
    intro x
    constructor
    · intro hx
      exact ⟨x.num, ((Rat.den_eq_one_iff x).mp hx).symm⟩
    · rintro ⟨a, rfl⟩
      exact Rat.den_intCast a
  constructor
  · simp [dc_frac_is_gaussian_int_val, df_is_integer]
  · simp [dc_frac_is_gaussian_int_val, df_is_integer, hden]

/-- C5: for each of the three types, releasing a singleton cell any number
of times — from any starting count, including repeatedly past apparent
zero — never deallocates it, and every such release still reports `kept`
(the path that sets the caller's handle to NULL without freeing). -/
theorem singleton_release_never_deallocates :
    (∀ (v : GaussianC) (cnt n : ℕ), ∃ o : RC GaussianC,
       relNTimes dc_int_release ⟨cnt, true, v⟩ n = some o ∧ o.isSingleton = true ∧
       ∃ o2, dc_int_release (some (some o)) = .kept o2) ∧
    (∀ (v : RationalC) (cnt n : ℕ), ∃ o : RC RationalC,
       relNTimes dc_frac_release ⟨cnt, true, v⟩ n = some o ∧ o.isSingleton = true ∧
       ∃ o2, dc_frac_release (some (some o)) = .kept o2) ∧
    (∀ (v : CplxE) (cnt n : ℕ), ∃ o : RC CplxE,
       relNTimes dc_double_release ⟨cnt, true, v⟩ n = some o ∧ o.isSingleton = true ∧
       ∃ o2, dc_double_release (some (some o)) = .kept o2) := by
  refine ⟨fun v cnt n => ?_, fun v cnt n => ?_, fun v cnt n => ?_⟩ <;>
  · obtain ⟨o, ho, hs⟩ := relNTimes_singleton v cnt n
    obtain ⟨o2, h2, _⟩ := rcRelease_singleton_kept o hs
    exact ⟨o, ho, hs, o2, h2⟩

/-- C7: for a non-NULL, nonzero operand, `dc_frac_reciprocal` produces
exactly what `dc_frac_div` produces when dividing the multiplicative
identity `1 + 0i` by the operand — the reciprocal is implemented by that
very division, not by an independent formula. -/
theorem dc_frac_reciprocal_is_div_one (c : RC RationalC)
    (h : ¬(c.payload.re = 0 ∧ c.payload.im = 0)) :
    dc_frac_reciprocal (some c) = dc_frac_div (some (rcNew ⟨1, 0⟩)) (some c) := by
  have hz := frac_is_zero_val_false h
  simp [dc_frac_reciprocal, hz]

theorem dc_frac_reciprocal_is_div_one_witness :
    ¬(((⟨2, 3⟩ : RationalC).re = 0) ∧ ((⟨2, 3⟩ : RationalC).im = 0)) ∧
    dc_frac_reciprocal (some (rcNew ⟨2, 3⟩)) =
      dc_frac_div (some (rcNew ⟨1, 0⟩)) (some (rcNew ⟨2, 3⟩)) :=
  ⟨by norm_num, dc_frac_reciprocal_is_div_one (rcNew ⟨2, 3⟩) (by norm_num [rcNew])⟩

/-- C9: for each of the three types, release called with a NULL
pointer-to-handle, or with a pointer whose target handle is already NULL,
returns immediately with no effect at all — no assertion, no count change,
no deallocation. -/
theorem dc_release_null_is_noop :
    dc_int_release none = .untouched ∧ dc_int_release (some none) = .untouched ∧
    dc_frac_release none = .untouched ∧ dc_frac_release (some none) = .untouched ∧
    dc_double_release none = .untouched ∧ dc_double_release (some none) = .untouched :=
  ⟨rfl, rfl, rfl, rfl, rfl, rfl⟩

/-- C6 counterexample: `dc_int_release` is an exported operation of the
public surface that accepts a NULL handle silently — called on a pointer
whose target handle is NULL it returns `untouched` (no assertion failure),
contradicting the claim that every exported operation asserts on a NULL
handle operand. -/
theorem dc_int_release_accepts_null_silently :
    dc_int_release (some none) = RelEffect.untouched := rfl

/-- C6 (amended): every exported operation of every type that takes a
handle operand asserts on a NULL handle — with the sole exception of the
three release functions, which silently accept a NULL pointer or a NULL
handle and return with no effect. -/
theorem null_handle_asserts_except_release :
    nullAsserts2 dc_int_from_di ∧
    nullAsserts1 dc_int_retain ∧
    nullAsserts1 dc_int_copy ∧
    nullAsserts2 dc_int_add ∧
    nullAsserts2 dc_int_sub ∧
    nullAsserts2 dc_int_mul ∧
    nullAsserts2 dc_int_div ∧
    nullAsserts1 dc_int_negate ∧
    nullAsserts1 dc_int_conj ∧
    nullAsserts1 dc_int_real ∧
    nullAsserts1 dc_int_imag ∧
    nullAsserts2 dc_int_eq ∧
    nullAsserts1 dc_int_is_zero ∧
    nullAsserts1 dc_int_is_real ∧
    nullAsserts1 dc_int_is_imag ∧
    nullAsserts1 dc_int_to_string ∧
    nullAsserts2 dc_frac_from_df ∧
    nullAsserts1 dc_frac_retain ∧
    nullAsserts1 dc_frac_copy ∧
    nullAsserts2 dc_frac_add ∧
    nullAsserts2 dc_frac_sub ∧
    nullAsserts2 dc_frac_mul ∧
    nullAsserts2 dc_frac_div ∧
    nullAsserts1 dc_frac_negate ∧
    nullAsserts1 dc_frac_conj ∧
    nullAsserts1 dc_frac_reciprocal ∧
    nullAsserts1 dc_frac_real ∧
    nullAsserts1 dc_frac_imag ∧
    nullAsserts2 dc_frac_eq ∧
    nullAsserts1 dc_frac_is_zero ∧
    nullAsserts1 dc_frac_is_real ∧
    nullAsserts1 dc_frac_is_imag ∧
    nullAsserts1 dc_frac_is_gaussian_int ∧
    nullAsserts1 dc_frac_to_string ∧
    nullAsserts1 dc_double_retain ∧
    nullAsserts1 dc_double_copy ∧
    nullAsserts2 dc_double_add ∧
    nullAsserts2 dc_double_sub ∧
    nullAsserts2 dc_double_mul ∧
    nullAsserts2 dc_double_div ∧
    nullAsserts1 dc_double_negate ∧
    nullAsserts1 dc_double_conj ∧
    nullAsserts1 dc_double_exp ∧
    nullAsserts1 dc_double_log ∧
    nullAsserts2 dc_double_pow ∧
    nullAsserts1 dc_double_sqrt ∧
    nullAsserts1 dc_double_sin ∧
    nullAsserts1 dc_double_cos ∧
    nullAsserts1 dc_double_tan ∧
    nullAsserts1 dc_double_sinh ∧
    nullAsserts1 dc_double_cosh ∧
    nullAsserts1 dc_double_tanh ∧
    nullAsserts1 dc_double_real ∧
    nullAsserts1 dc_double_imag ∧
    nullAsserts1 dc_double_abs ∧
    nullAsserts1 dc_double_arg ∧
    nullAsserts2 dc_double_eq ∧
    nullAsserts1 dc_double_is_zero ∧
    nullAsserts1 dc_double_is_real ∧
    nullAsserts1 dc_double_is_imag ∧
    nullAsserts1 dc_double_is_nan ∧
    nullAsserts1 dc_double_is_inf ∧
    nullAsserts1 dc_double_to_string ∧
    nullAsserts1 dc_int_to_frac ∧
    nullAsserts1 dc_int_to_double ∧
    nullAsserts1 dc_frac_to_double ∧
    nullAsserts1 dc_frac_to_int ∧
    nullAsserts1 dc_double_to_int ∧
    (∀ n : ℤ, dc_double_to_frac none n = .error .assertNull) ∧
    dc_int_release none = .untouched ∧
    dc_int_release (some none) = .untouched ∧
    dc_frac_release none = .untouched ∧
    dc_frac_release (some none) = .untouched ∧
    dc_double_release none = .untouched ∧
    dc_double_release (some none) = .untouched :=
  ⟨⟨fun _ => rfl, fun _ => rfl⟩, rfl, rfl,
   ⟨fun _ => rfl, fun _ => rfl⟩, ⟨fun _ => rfl, fun _ => rfl⟩,
   ⟨fun _ => rfl, fun _ => rfl⟩, ⟨fun _ => rfl, fun _ => rfl⟩,
   rfl, rfl, rfl, rfl, ⟨fun _ => rfl, fun _ => rfl⟩, rfl, rfl, rfl, rfl,
   ⟨fun _ => rfl, fun _ => rfl⟩, rfl, rfl,
   ⟨fun _ => rfl, fun _ => rfl⟩, ⟨fun _ => rfl, fun _ => rfl⟩,
   ⟨fun _ => rfl, fun _ => rfl⟩, ⟨fun _ => rfl, fun _ => rfl⟩,
   rfl, rfl, rfl, rfl, rfl, ⟨fun _ => rfl, fun _ => rfl⟩, rfl, rfl, rfl, rfl, rfl,
   rfl, rfl,
   ⟨fun _ => rfl, fun _ => rfl⟩, ⟨fun _ => rfl, fun _ => rfl⟩,
   ⟨fun _ => rfl, fun _ => rfl⟩, ⟨fun _ => rfl, fun _ => rfl⟩,
   rfl, rfl, rfl, rfl, ⟨fun _ => rfl, fun _ => rfl⟩,
   rfl, rfl, rfl, rfl, rfl, rfl, rfl, rfl, rfl, rfl, rfl,
   ⟨fun _ => rfl, fun _ => rfl⟩, rfl, rfl, rfl, rfl, rfl, rfl,
   rfl, rfl, rfl, rfl, rfl, fun _ => rfl,
   rfl, rfl, rfl, rfl, rfl, rfl⟩

/-- C10: every constructing operation returns a fresh cell with reference
count exactly 1 (creation from primitives or components, copy, every
arithmetic operation returning a complex handle, and every conversion),
while retain and the fifteen singleton accessors return a cell whose count
exceeds 1 (under sane pre-counts that do not wrap the `size_t`).  The two
conjuncts used by the witness come first. -/
theorem constructors_return_refcount_one :
    (∀ re im : ℤ, (dc_int_from_ints re im).refCount = 1) ∧
    (∀ slot, (∀ s, slot = some s → 1 ≤ s.refCount ∧ s.refCount + 1 < 2 ^ 64) →
       1 < ((dc_int_zero slot).1).refCount) ∧
    freshOk2 dc_int_from_di ∧
    freshOk1 dc_int_copy ∧
    freshOk2 dc_int_add ∧
    freshOk2 dc_int_sub ∧
    freshOk2 dc_int_mul ∧
    freshOk2 dc_int_div ∧
    freshOk1 dc_int_negate ∧
    freshOk1 dc_int_conj ∧
    (∀ rn rd iN iD r, dc_frac_from_ints rn rd iN iD = .ok r → r.refCount = 1) ∧
    freshOk2 dc_frac_from_df ∧
    freshOk1 dc_frac_copy ∧
    freshOk2 dc_frac_add ∧
    freshOk2 dc_frac_sub ∧
    freshOk2 dc_frac_mul ∧
    freshOk2 dc_frac_div ∧
    freshOk1 dc_frac_negate ∧
    freshOk1 dc_frac_conj ∧
    freshOk1 dc_frac_reciprocal ∧
    (∀ re im : ℚ, (dc_double_from_doubles re im).refCount = 1) ∧
    (∀ mag angle : ℚ, (dc_double_from_polar mag angle).refCount = 1) ∧
    freshOk1 dc_double_copy ∧
    freshOk2 dc_double_add ∧
    freshOk2 dc_double_sub ∧
    freshOk2 dc_double_mul ∧
    freshOk2 dc_double_div ∧
    freshOk1 dc_double_negate ∧
    freshOk1 dc_double_conj ∧
    freshOk1 dc_double_exp ∧
    freshOk1 dc_double_log ∧
    freshOk2 dc_double_pow ∧
    freshOk1 dc_double_sqrt ∧
    freshOk1 dc_double_sin ∧
    freshOk1 dc_double_cos ∧
    freshOk1 dc_double_tan ∧
    freshOk1 dc_double_sinh ∧
    freshOk1 dc_double_cosh ∧
    freshOk1 dc_double_tanh ∧
    freshOk1 dc_int_to_frac ∧
    freshOk1 dc_int_to_double ∧
    freshOk1 dc_frac_to_double ∧
    freshOk1 dc_frac_to_int ∧
    freshOk1 dc_double_to_int ∧
    (∀ c n r, dc_double_to_frac c n = .ok r → r.refCount = 1) ∧
    (∀ c : RC GaussianC, 1 ≤ c.refCount → c.refCount + 1 < 2 ^ 64 →
       ∀ r, dc_int_retain (some c) = .ok r → 1 < r.refCount) ∧
    (∀ c : RC RationalC, 1 ≤ c.refCount → c.refCount + 1 < 2 ^ 64 →
       ∀ r, dc_frac_retain (some c) = .ok r → 1 < r.refCount) ∧
    (∀ c : RC CplxE, 1 ≤ c.refCount → c.refCount + 1 < 2 ^ 64 →
       ∀ r, dc_double_retain (some c) = .ok r → 1 < r.refCount) ∧
    (∀ slot, (∀ s, slot = some s → 1 ≤ s.refCount ∧ s.refCount + 1 < 2 ^ 64) →
       1 < ((dc_int_one slot).1).refCount) ∧
    (∀ slot, (∀ s, slot = some s → 1 ≤ s.refCount ∧ s.refCount + 1 < 2 ^ 64) →
       1 < ((dc_int_i slot).1).refCount) ∧
    (∀ slot, (∀ s, slot = some s → 1 ≤ s.refCount ∧ s.refCount + 1 < 2 ^ 64) →
       1 < ((dc_int_neg_one slot).1).refCount) ∧
    (∀ slot, (∀ s, slot = some s → 1 ≤ s.refCount ∧ s.refCount + 1 < 2 ^ 64) →
       1 < ((dc_int_neg_i slot).1).refCount) ∧
    (∀ slot, (∀ s, slot = some s → 1 ≤ s.refCount ∧ s.refCount + 1 < 2 ^ 64) →
       1 < ((dc_frac_zero slot).1).refCount) ∧
    (∀ slot, (∀ s, slot = some s → 1 ≤ s.refCount ∧ s.refCount + 1 < 2 ^ 64) →
       1 < ((dc_frac_one slot).1).refCount) ∧
    (∀ slot, (∀ s, slot = some s → 1 ≤ s.refCount ∧ s.refCount + 1 < 2 ^ 64) →
       1 < ((dc_frac_i slot).1).refCount) ∧
    (∀ slot, (∀ s, slot = some s → 1 ≤ s.refCount ∧ s.refCount + 1 < 2 ^ 64) →
       1 < ((dc_frac_neg_one slot).1).refCount) ∧
    (∀ slot, (∀ s, slot = some s → 1 ≤ s.refCount ∧ s.refCount + 1 < 2 ^ 64) →
       1 < ((dc_frac_neg_i slot).1).refCount) ∧
    (∀ slot, (∀ s, slot = some s → 1 ≤ s.refCount ∧ s.refCount + 1 < 2 ^ 64) →
       1 < ((dc_double_zero slot).1).refCount) ∧
    (∀ slot, (∀ s, slot = some s → 1 ≤ s.refCount ∧ s.refCount + 1 < 2 ^ 64) →
       1 < ((dc_double_one slot).1).refCount) ∧
    (∀ slot, (∀ s, slot = some s → 1 ≤ s.refCount ∧ s.refCount + 1 < 2 ^ 64) →
       1 < ((dc_double_i slot).1).refCount) ∧
    (∀ slot, (∀ s, slot = some s → 1 ≤ s.refCount ∧ s.refCount + 1 < 2 ^ 64) →
       1 < ((dc_double_neg_one slot).1).refCount) ∧
    (∀ slot, (∀ s, slot = some s → 1 ≤ s.refCount ∧ s.refCount + 1 < 2 ^ 64) →
       1 < ((dc_double_neg_i slot).1).refCount) :=
  ⟨fun _ _ => rfl,
   fun slot hs => singletonAcc_gt_one _ slot hs,
   fun _ _ _ h => dc_int_from_di_ok_refCount h,
   fun _ _ h => op1_ok_refCount h,
   fun _ _ _ h => op2_ok_refCount h,
   fun _ _ _ h => op2_ok_refCount h,
   fun _ _ _ h => op2_ok_refCount h,
   fun _ _ _ h => dc_int_div_ok_refCount h,
   fun _ _ h => op1_ok_refCount h,
   fun _ _ h => op1_ok_refCount h,
   fun _ _ _ _ _ h => dc_frac_from_ints_ok_refCount h,
   fun _ _ _ h => dc_frac_from_df_ok_refCount h,
   fun _ _ h => op1_ok_refCount h,
   fun _ _ _ h => op2_ok_refCount h,
   fun _ _ _ h => op2_ok_refCount h,
   fun _ _ _ h => op2_ok_refCount h,
   fun _ _ _ h => dc_frac_div_ok_refCount h,
   fun _ _ h => op1_ok_refCount h,
   fun _ _ h => op1_ok_refCount h,
   fun _ _ h => dc_frac_reciprocal_ok_refCount h,
   fun _ _ => rfl,
   fun _ _ => rfl,
   fun _ _ h => op1_ok_refCount h,
   fun _ _ _ h => op2_ok_refCount h,
   fun _ _ _ h => op2_ok_refCount h,
   fun _ _ _ h => op2_ok_refCount h,
   fun _ _ _ h => dc_double_div_ok_refCount h,
   fun _ _ h => op1_ok_refCount h,
   fun _ _ h => op1_ok_refCount h,
   fun _ _ h => op1_ok_refCount h,
   fun _ _ h => dc_double_log_ok_refCount h,
   fun _ _ _ h => op2_ok_refCount h,
   fun _ _ h => op1_ok_refCount h,
   fun _ _ h => op1_ok_refCount h,
   fun _ _ h => op1_ok_refCount h,
   fun _ _ h => op1_ok_refCount h,
   fun _ _ h => op1_ok_refCount h,
   fun _ _ h => op1_ok_refCount h,
   fun _ _ h => op1_ok_refCount h,
   fun _ _ h => op1_ok_refCount h,
   fun _ _ h => op1_ok_refCount h,
   fun _ _ h => op1_ok_refCount h,
   fun _ _ h => op1_ok_refCount h,
   fun _ _ h => op1_ok_refCount h,
   fun _ _ _ h => dc_double_to_frac_ok_refCount h,
   fun _ h1 h2 _ h => rcRetain_ok_gt_one h1 h2 h,
   fun _ h1 h2 _ h => rcRetain_ok_gt_one h1 h2 h,
   fun _ h1 h2 _ h => rcRetain_ok_gt_one h1 h2 h,
   fun slot hs => singletonAcc_gt_one _ slot hs,
   fun slot hs => singletonAcc_gt_one _ slot hs,
   fun slot hs => singletonAcc_gt_one _ slot hs,
   fun slot hs => singletonAcc_gt_one _ slot hs,
   fun slot hs => singletonAcc_gt_one _ slot hs,
   fun slot hs => singletonAcc_gt_one _ slot hs,
   fun slot hs => singletonAcc_gt_one _ slot hs,
   fun slot hs => singletonAcc_gt_one _ slot hs,
   fun slot hs => singletonAcc_gt_one _ slot hs,
   fun slot hs => singletonAcc_gt_one _ slot hs,
   fun slot hs => singletonAcc_gt_one _ slot hs,
   fun slot hs => singletonAcc_gt_one _ slot hs,
   fun slot hs => singletonAcc_gt_one _ slot hs,
   fun slot hs => singletonAcc_gt_one _ slot hs⟩

theorem constructors_return_refcount_one_witness :
    (dc_int_from_ints 3 4).refCount = 1 ∧ 1 < ((dc_int_zero none).1).refCount :=
  ⟨constructors_return_refcount_one.1 3 4,
   constructors_return_refcount_one.2.1 none (fun _s h => nomatch h)⟩

-- ===========================================================================
-- Rendering lemmas for the string-formatting claim
-- ===========================================================================

theorem digitChar_eq_one_iff : ∀ d : ℕ, d < 10 → (digitChar d = '1' ↔ d = 1) := by
  decide

theorem digitChar_ne_dash : ∀ d : ℕ, d < 10 → digitChar d ≠ '-' := by
  decide

theorem natDigs_length_pos (m : ℕ) : 1 ≤ (natDigs m).length := by
  rw [natDigs]
  split <;> simp

theorem natDigs_eq_one_iff (m : ℕ) : natDigs m = ['1'] ↔ m = 1 := by
  constructor
  · intro h
    rw [natDigs] at h
    split at h
    · rename_i hm
      simp only [List.cons.injEq, and_true] at h
      exact (digitChar_eq_one_iff m hm).mp h
    · exfalso
      have hl := natDigs_length_pos (m / 10)
      apply_fun List.length at h
      simp only [List.length_append, List.length_singleton, List.length_cons,
        List.length_nil] at h
      omega
  · rintro rfl
    rw [natDigs]
    split
    · decide
    · rename_i hm
      exact absurd (by omega : (1 : ℕ) < 10) hm

theorem dash_not_mem_natDigs (m : ℕ) : '-' ∉ natDigs m := by
  induction m using Nat.strong_induction_on with
  | _ m ih =>
    rw [natDigs]
    split
    · rename_i hm
      simp only [List.mem_singleton]
      exact fun h => digitChar_ne_dash m hm h.symm
    · rename_i hm
      simp only [List.mem_append, List.mem_singleton]
      rintro (h | h)
      · exact ih (m / 10) (Nat.div_lt_self (by omega) (by omega)) h
      · exact digitChar_ne_dash (m % 10) (Nat.mod_lt _ (by omega)) h.symm

theorem intStr_eq_one_iff (n : ℤ) : intStr n = ['1'] ↔ n = 1 := by
  unfold intStr
  split
  · rename_i hn
    constructor
    · intro h
      simp only [List.cons.injEq] at h
      exact absurd h.1 (by decide)
    · intro h
      exact absurd (h ▸ hn) (by norm_num)
  · rename_i hn
    rw [natDigs_eq_one_iff]
    omega

theorem intStr_eq_negone_iff (n : ℤ) : intStr n = ['-', '1'] ↔ n = -1 := by
  unfold intStr
  split
  · rename_i hn
    simp only [List.cons.injEq, true_and]
    rw [natDigs_eq_one_iff]
    omega
  · rename_i hn
    constructor
    · intro h
      exfalso
      apply dash_not_mem_natDigs n.toNat
      rw [h]
      simp
    · intro h
      exact absurd h (by omega)

theorem intStr_beq_one (n : ℤ) : (intStr n == ['1']) = (n == 1) := by
  by_cases h : n = 1
  · subst h
    have he : intStr 1 = ['1'] := (intStr_eq_one_iff 1).mpr rfl
    simp [he]
  · have h1 : intStr n ≠ ['1'] := fun hh => h ((intStr_eq_one_iff n).mp hh)
    simp [h, h1]

theorem intStr_beq_negone (n : ℤ) : (intStr n == ['-', '1']) = (n == -1) := by
  by_cases h : n = -1
  · subst h
    have he : intStr (-1) = ['-', '1'] := (intStr_eq_negone_iff (-1)).mpr rfl
    simp [he]
  · have h1 : intStr n ≠ ['-', '1'] := fun hh => h ((intStr_eq_negone_iff n).mp hh)
    simp [h, h1]

theorem df_cmp_eq_zero_iff (a b : ℚ) : df_cmp a b = 0 ↔ a = b := by
  unfold df_cmp
  split
  · rename_i h
    exact iff_of_false (by norm_num) (ne_of_lt h)
  · split
    · rename_i h
      exact iff_of_true rfl h
    · rename_i h
      exact iff_of_false (by norm_num) h

theorem df_cmp_beq_zero (a b : ℚ) : (df_cmp a b == 0) = (a == b) := by
  by_cases h : a = b
  · subst h
    have he : df_cmp a a = 0 := (df_cmp_eq_zero_iff a a).mpr rfl
    simp [he]
  · have h1 : df_cmp a b ≠ 0 := fun hh => h ((df_cmp_eq_zero_iff a b).mp hh)
    simp [h, h1]

/-- C8: both exact-type renderers follow the shared formatting table of
spec section 4.4 (`specSharedFormat`, written from the spec's words),
instantiated at the per-type component renderer and component queries.  The
integer renderer decides "is exactly one / negative one" by comparing the
rendered text against `"1"` / `"-1"`, the rational renderer by `df_cmp`
against `df_one()` / `df_neg_one()`; both agree with the table's value
tests. -/
theorem dc_to_string_follows_shared_table :
    (∀ g : GaussianC, dc_int_to_string_val g =
       specSharedFormat intStr (fun n : ℤ => n == 0) (fun n : ℤ => n == 1)
         (fun n : ℤ => n == -1) (fun n : ℤ => decide (n < 0)) g.re g.im) ∧
    (∀ q : RationalC, dc_frac_to_string_val q =
       specSharedFormat fracStr (fun x : ℚ => x == 0) (fun x : ℚ => x == 1)
         (fun x : ℚ => x == -1) (fun x : ℚ => decide (x < 0)) q.re q.im) := by
  constructor
  · intro g
    unfold dc_int_to_string_val specSharedFormat
    simp only [intStr_beq_one, intStr_beq_negone]
    by_cases h1 : g.re = 0 <;> by_cases h2 : g.im = 0 <;>
      by_cases h3 : g.im = 1 <;> by_cases h4 : g.im = -1 <;>
      by_cases h5 : g.im < 0 <;>
      simp [h1, h2, h3, h4, h5, List.append_assoc]
  · intro q
    unfold dc_frac_to_string_val specSharedFormat
    simp only [df_cmp_beq_zero]
    by_cases h1 : q.re = 0 <;> by_cases h2 : q.im = 0 <;>
      by_cases h3 : q.im = 1 <;> by_cases h4 : q.im = -1 <;>
      by_cases h5 : q.im < 0 <;>
      simp [h1, h2, h3, h4, h5, List.append_assoc,
        (by norm_num : ¬((-1 : ℚ) = 1)), (by norm_num : ¬((1 : ℚ) = -1))]

-- ===========================================================================
-- Binary64 rounding lemmas for the round-trip claim
-- ===========================================================================

theorem log2fuel_bounds : ∀ f n : ℕ, 1 ≤ n → n ≤ f →
    2 ^ log2fuel f n ≤ n ∧ n < 2 ^ (log2fuel f n + 1) := by
  intro f
  induction f with
  | zero => intro n h1 h2; omega
  | succ f ih =>
    intro n h1 h2
    rw [log2fuel]
    split
    · rename_i hn
      constructor
      · simpa using h1
      · simpa using hn
    · rename_i hn
      push_neg at hn
      obtain ⟨hlo, hhi⟩ := ih (n / 2) (by omega) (by omega)
      rw [pow_succ] at hhi ⊢
      rw [pow_succ]
      constructor <;> omega

theorem nlog2_bounds (n : ℕ) (h : 1 ≤ n) :
    2 ^ nlog2 n ≤ n ∧ n < 2 ^ (nlog2 n + 1) :=
  log2fuel_bounds n n h le_rfl

theorem qlog2_int (p : ℕ) (hp : 1 ≤ p) : qlog2 p 1 = (nlog2 p : ℤ) := by
  have hle := (nlog2_bounds p hp).1
  have h0 : nlog2 1 = 0 := rfl
  simp only [qlog2, h0, Nat.cast_zero, sub_zero, one_mul, Int.toNat_natCast]
  rw [if_pos (by positivity : (0 : ℤ) ≤ (nlog2 p : ℤ)), if_pos hle]

theorem roundHalfEven_intCast (k : ℤ) : roundHalfEven (k : ℚ) = k := by
  simp only [roundHalfEven, Int.floor_intCast, sub_self]
  norm_num

theorem c_round_intCast (k : ℤ) : c_round (k : ℚ) = k := by
  unfold c_round
  split
  · rw [show ((k : ℚ) + 1 / 2) = ((k : ℤ) : ℚ) + 1 / 2 from rfl, Int.floor_int_add]
    norm_num
  · rw [show (-(k : ℚ) + 1 / 2) = ((-k : ℤ) : ℚ) + 1 / 2 from by push_cast; ring,
        Int.floor_int_add]
    norm_num

theorem castInt64_some (v : ℤ) (h1 : -(2 ^ 63) ≤ v) (h2 : v < 2 ^ 63) :
    castInt64 v = some v := by
  unfold castInt64
  rw [if_pos ⟨h1, h2⟩]

theorem roundF64_zero : roundF64 0 = 0 := by
  simp [roundF64]

theorem roundF64_int_exact (n : ℤ) (h : n.natAbs ≤ 2 ^ 53) :
    roundF64 (n : ℚ) = (n : ℚ) := by
  by_cases hn0 : n = 0
  · subst hn0
    simpa using roundF64_zero
  have hx0 : ((n : ℚ)) ≠ 0 := Int.cast_ne_zero.mpr hn0
  have hp1 : 1 ≤ n.natAbs := by omega
  have he : qlog2 ((n : ℚ)).num.natAbs ((n : ℚ)).den = (nlog2 n.natAbs : ℤ) := by
    rw [Rat.num_intCast, Rat.den_intCast]
    exact qlog2_int n.natAbs hp1
  have hbnd := nlog2_bounds n.natAbs hp1
  have h54 : (2 : ℕ) ^ 53 < 2 ^ 54 := by norm_num
  have hE53 : nlog2 n.natAbs ≤ 53 := by
    by_contra hcon
    push_neg at hcon
    have hup : (2 : ℕ) ^ 54 ≤ 2 ^ nlog2 n.natAbs := Nat.pow_le_pow_right (by omega) (by omega)
    have := hbnd.1
    omega
  set E : ℕ := nlog2 n.natAbs with hE
  simp only [roundF64, he]
  rw [if_neg hx0, if_neg (by omega : ¬(1024 ≤ (E : ℤ))),
      if_neg (by omega : ¬((E : ℤ) < -1022))]
  have habs : |(n : ℚ)| = ((n.natAbs : ℤ) : ℚ) := by
    push_cast [Int.cast_natAbs]
    ring
  obtain ⟨k, hk⟩ : ∃ k : ℤ, |(n : ℚ)| * (2 : ℚ) ^ (-((E : ℤ) - 52)) = (k : ℚ) := by
    by_cases hE52 : E ≤ 52
    · refine ⟨(n.natAbs : ℤ) * 2 ^ (52 - E), ?_⟩
      rw [habs, show (-((E : ℤ) - 52)) = ((52 - E : ℕ) : ℤ) from by omega, zpow_natCast]
      push_cast
      ring
    · have hE53' : E = 53 := by omega
      have hval : n.natAbs = 2 ^ 53 := by
        have hl := hbnd.1
        rw [hE53'] at hl
        omega
      refine ⟨2 ^ 52, ?_⟩
      rw [habs, hval, hE53']
      push_cast
      norm_num [zpow_neg, zpow_one]
  rw [hk, roundHalfEven_intCast, ← hk]
  have hmul : (2 : ℚ) ^ (-((E : ℤ) - 52)) * 2 ^ ((E : ℤ) - 52) = 1 := by
    rw [zpow_neg]
    exact inv_mul_cancel₀ (zpow_ne_zero _ (by norm_num))
  have hrearr : ∀ s : ℚ,
      s * (|(n : ℚ)| * 2 ^ (-((E : ℤ) - 52))) * 2 ^ ((E : ℤ) - 52) =
        s * |(n : ℚ)| * ((2 : ℚ) ^ (-((E : ℤ) - 52)) * 2 ^ ((E : ℤ) - 52)) :=
    fun s => by ring
  rw [hrearr, hmul, mul_one]
  split
  · rename_i hneg
    rw [abs_of_neg hneg]
    ring
  · rename_i hpos
    rw [abs_of_nonneg (not_lt.mp hpos)]
    ring

/-- C3 (amended): the round trip GaussianComplex → RationalComplex →
GaussianComplex (`dc_int_to_frac` then `dc_frac_to_int`) is the identity for
every Gaussian integer whose components do not exceed `2^53` in absolute
value — the range in which the `double` intermediate used by
`dc_frac_to_int` is exact.  Beyond that range the double rounds (see the
counterexample at `2^53 + 1`), so the identity does not hold without a
magnitude restriction. -/
theorem gaussian_roundtrip_small (g : GaussianC)
    (h1 : g.re.natAbs ≤ 2 ^ 53) (h2 : g.im.natAbs ≤ 2 ^ 53) :
    dc_frac_to_int_val (dc_int_to_frac_val g) = some g := by
  have hb : (2 : ℤ) ^ 53 < 2 ^ 63 := by norm_num
  simp only [dc_int_to_frac_val, dc_frac_to_int_val]
  rw [roundF64_int_exact g.re h1, roundF64_int_exact g.im h2,
      c_round_intCast, c_round_intCast,
      castInt64_some _ (by omega) (by omega),
      castInt64_some _ (by omega) (by omega)]

theorem gaussian_roundtrip_small_witness :
    (3 : ℤ).natAbs ≤ 2 ^ 53 ∧ (-4 : ℤ).natAbs ≤ 2 ^ 53 ∧
    dc_frac_to_int_val (dc_int_to_frac_val ⟨3, -4⟩) = some ⟨3, -4⟩ :=
  ⟨by norm_num, by norm_num,
   gaussian_roundtrip_small ⟨3, -4⟩ (by norm_num) (by norm_num)⟩

theorem roundF64_2p53p1 : roundF64 (((2 ^ 53 + 1 : ℤ) : ℚ)) = ((2 ^ 53 : ℤ) : ℚ) := by
  have hx0 : (((2 ^ 53 + 1 : ℤ) : ℚ)) ≠ 0 := by
    rw [Int.cast_ne_zero]
    norm_num
  have hqe : qlog2 (((2 ^ 53 + 1 : ℤ) : ℚ)).num.natAbs (((2 ^ 53 + 1 : ℤ) : ℚ)).den = 53 := by
    rw [Rat.num_intCast, Rat.den_intCast,
        show ((2 ^ 53 + 1 : ℤ)).natAbs = 2 ^ 53 + 1 from by norm_num]
    decide
  have habs : |(((2 ^ 53 + 1 : ℤ) : ℚ))| = (((2 ^ 53 + 1 : ℤ) : ℚ)) := by
    apply abs_of_pos
    push_cast
    positivity
  simp only [roundF64, hqe]
  rw [if_neg hx0, if_neg (by norm_num : ¬((1024 : ℤ) ≤ 53)),
      show (if (53 : ℤ) < -1022 then (-1074 : ℤ) else 53 - 52) = 1 from by norm_num,
      if_neg (by norm_num : ¬((((2 ^ 53 + 1 : ℤ) : ℚ)) < 0)), habs]
  have harg : (((2 ^ 53 + 1 : ℤ) : ℚ)) * (2 : ℚ) ^ (-(1 : ℤ)) =
      (((2 ^ 52 : ℤ) : ℚ)) + 1 / 2 := by
    rw [zpow_neg, zpow_one]
    push_cast
    ring
  rw [harg]
  have hhe : roundHalfEven ((((2 ^ 52 : ℤ) : ℚ)) + 1 / 2) = 2 ^ 52 := by
    have hfl : ⌊(((2 ^ 52 : ℤ) : ℚ)) + 1 / 2⌋ = 2 ^ 52 := by
      rw [Int.floor_int_add]
      norm_num
    simp only [roundHalfEven, hfl]
    have hsub : (((2 ^ 52 : ℤ) : ℚ)) + 1 / 2 - (((2 ^ 52 : ℤ) : ℚ)) = 1 / 2 := by ring
    rw [hsub]
    norm_num
  rw [hhe, zpow_one]
  push_cast
  ring

/-- C3 counterexample: the claim as stated ("identity for every Gaussian
integer, with no restriction on magnitude") fails at `(2^53 + 1) + 0i`: the
round trip goes through a `double` intermediate, which rounds `2^53 + 1` to
`2^53`, so the trip returns `2^53 + 0i ≠ (2^53 + 1) + 0i`. -/
theorem gaussian_roundtrip_fails_large :
    dc_frac_to_int_val (dc_int_to_frac_val ⟨2 ^ 53 + 1, 0⟩) = some ⟨2 ^ 53, 0⟩ ∧
    some (⟨2 ^ 53, 0⟩ : GaussianC) ≠ some (⟨2 ^ 53 + 1, 0⟩ : GaussianC) := by
  constructor
  · have h0 : dc_int_to_frac_val ⟨2 ^ 53 + 1, 0⟩ =
        (⟨((2 ^ 53 + 1 : ℤ) : ℚ), ((0 : ℤ) : ℚ)⟩ : RationalC) := rfl
    rw [h0]
    simp only [dc_frac_to_int_val]
    rw [show (((0 : ℤ) : ℚ)) = (0 : ℚ) from by norm_num]
    rw [roundF64_2p53p1, roundF64_zero,
        show (0 : ℚ) = ((0 : ℤ) : ℚ) from by norm_num,
        c_round_intCast, c_round_intCast,
        castInt64_some _ (by norm_num) (by norm_num),
        castInt64_some _ (by norm_num) (by norm_num)]
  · intro hcon
    simp only [Option.some.injEq, GaussianC.mk.injEq] at hcon
    omega

end DynamicComplex
